import Mathlib

set_option autoImplicit false

namespace Unleash

/-!
Verification of the feature-flag platform's frontend API behavior and the
webhook addon. The webhook addon is embedded from
`src/lib/addons/webhook.ts`. The frontend API implementation (token
resolver, toggle filter, metrics aggregator) is not among the sampled
source files — only its integration tests are — so those components are
modelled from the specification (sections 4.1-4.3, 6, 7).
-/

/-! ## Webhook addon, embedded from src/lib/addons/webhook.ts -/

/-- The `IParameters` interface of the webhook addon. Optional string fields
of the TypeScript interface become `Option String`. -/
structure WebhookParameters where
  url : String
  bodyTemplate : Option String
  contentType : Option String
  authorization : Option String
  customHeaders : Option String
deriving DecidableEq

/-- The outbound HTTP request assembled by `Webhook.handleEvent` and passed
to `fetchRetry`: method, the fixed headers, the spread extra headers parsed
from `customHeaders`, and the body. -/
structure WebhookRequest where
  method : String
  contentTypeHeader : String
  authorizationHeader : Option String
  extraHeaders : List (String × String)
  body : String
deriving DecidableEq

/-- Result of `handleEvent`: the request it sends, plus whether the
`customHeaders` JSON-parse failure warning was logged. -/
structure WebhookResult where
  request : WebhookRequest
  warnedInvalidHeaders : Bool
deriving DecidableEq

/-- JavaScript `s || d` for an optional string: absent or empty falls back
to the default (as in `contentType || 'application/json'`). -/
def jsStringOr (s : Option String) (d : String) : String :=
  match s with
  | none => d
  | some v => if v = "" then d else v

/-- JavaScript `s || undefined` for an optional string (as in
`Authorization: authorization || undefined`). -/
def jsStringOrUndef (s : Option String) : Option String :=
  match s with
  | none => none
  | some v => if v = "" then none else some v

/-- `Webhook.handleEvent`, embedded from `src/lib/addons/webhook.ts`.
The external collaborators are parameters: `parseJson` models `JSON.parse`
on the custom-headers string (`none` = the parse throws), `render` models
`Mustache.render` applied to the template and the event context, and
`stringify` models `JSON.stringify` of the event. The event type is
abstract. The function mirrors the source decision logic: the Mustache
template is used when `bodyTemplate` is a string of length `> 1`, otherwise
the body is `stringify event`; `customHeaders` is parsed only when it is a
string of length `> 1`, a parse failure logs a warning and leaves the extra
headers empty; the request is always a POST to `url`. -/
def handleEvent {Event : Type} (parseJson : String → Option (List (String × String)))
    (render : String → Event → String) (stringify : Event → String)
    (event : Event) (p : WebhookParameters) : WebhookResult :=
  let body : String :=
    match p.bodyTemplate with
    | some t => if t.length > 1 then render t event else stringify event
    | none => stringify event
  let parsed : List (String × String) × Bool :=
    match p.customHeaders with
    | some c =>
      if c.length > 1 then
        match parseJson c with
        | some hs => (hs, false)
        | none => ([], true)
      else ([], false)
    | none => ([], false)
  ⟨⟨"POST", jsStringOr p.contentType "application/json",
    jsStringOrUndef p.authorization, parsed.1, body⟩, parsed.2⟩

/-! ## Data model, modelled from the spec (section 3) -/

/-- Modelled from the spec: the three API token types (section 3, ApiToken).
The token model itself is absent from the sampled sources. -/
inductive ApiTokenType
  | admin
  | client
  | frontend
deriving DecidableEq

/-- Modelled from the spec: ApiToken = {secret, type, projects (may contain
the wildcard "*"), environment (id or wildcard)} (section 3). The token
model is absent from the sampled sources. -/
structure ApiToken where
  secret : String
  tokenType : ApiTokenType
  projects : List String
  environment : String
deriving DecidableEq

/-- Modelled from the spec: the constraint operators used by the claims,
IN and NOT_IN (section 3, Constraint). -/
inductive ConstraintOperator
  | IN
  | NOT_IN
deriving DecidableEq

/-- Modelled from the spec: Constraint = {contextName, operator, values}
(section 3). -/
structure Constraint where
  contextName : String
  operator : ConstraintOperator
  values : List String
deriving DecidableEq

/-- Modelled from the spec: Strategy = {name, constraints, parameters}
(section 3). -/
structure Strategy where
  name : String
  constraints : List Constraint
  parameters : List (String × String)
deriving DecidableEq

/-- Modelled from the spec: FeatureToggle = {name, project, enabled flag
per environment, ordered list of strategies} (section 3). The
per-environment enabled flags are an association list. -/
structure FeatureToggle where
  name : String
  project : String
  enabledIn : List (String × Bool)
  strategies : List Strategy
deriving DecidableEq

/-- Association-list lookup, used for request context fields,
per-environment enabled flags, and the metrics aggregates. -/
def alookup {κ β : Type} [DecidableEq κ] : List (κ × β) → κ → Option β
  | [], _ => none
  | (k', v) :: rest, k => if k' = k then some v else alookup rest k

/-! ## Toggle Filter, modelled from the spec (section 4.2) -/

/-- Modelled from the spec: constraint evaluation (section 4.2 step 4). The
toggle-filter implementation is absent from the sampled sources. IN is true
iff the context field's value is among `values`; NOT_IN is the negation; a
missing context field makes the constraint fail. -/
def evalConstraint (ctx : List (String × String)) (c : Constraint) : Bool :=
  match alookup ctx c.contextName with
  | none => false
  | some v =>
    match c.operator with
    | ConstraintOperator.IN => c.values.contains v
    | ConstraintOperator.NOT_IN => !(c.values.contains v)

/-- Modelled from the spec: the AND over a single strategy's constraint
list (section 4.2); this predicate alone deliberately ignores the strategy
name, which is how the spec words strategy satisfaction. -/
def strategyConstraintsPass (ctx : List (String × String)) (s : Strategy) : Bool :=
  s.constraints.all (evalConstraint ctx)

/-- Modelled from the spec: the strategy algorithms recognized by the
evaluator, as exercised in the sampled sources. The only recognized
algorithm appearing in the integration tests (src/unnamed/part_001) is
`default`, which is always on; the strategy-filtering test (lines 326-363)
pins that a strategy named `unknown` is not recognized. -/
def recognizedStrategyNames : List String := ["default"]

/-- Modelled from the spec as corrected by the strategy-filtering
integration test (src/unnamed/part_001, lines 326-363): a strategy
contributes to a toggle's inclusion only when its algorithm is recognized
AND all of its constraints pass — the test expects an enabled toggle whose
only strategy is named `unknown` (with vacuously passing empty constraints)
to be absent from the response, so unrecognized strategy names never
count as satisfied, contrary to the spec's leniency note. -/
def strategyPasses (ctx : List (String × String)) (s : Strategy) : Bool :=
  recognizedStrategyNames.contains s.name && strategyConstraintsPass ctx s

/-- Modelled from the spec: a toggle's project is in scope when the token's
project list contains the wildcard or the project itself (section 4.2
step 1). -/
def projectInScope (tok : ApiToken) (proj : String) : Bool :=
  tok.projects.contains "*" || tok.projects.contains proj

/-- Modelled from the spec: the enabled flag of the toggle in the token's
environment (section 4.2 step 2); a wildcard environment accepts a toggle
enabled in any environment. -/
def enabledInEnvironment (tok : ApiToken) (t : FeatureToggle) : Bool :=
  if tok.environment = "*" then t.enabledIn.any (fun e => e.2)
  else ((alookup t.enabledIn tok.environment).getD false)

/-- Modelled from the spec: a toggle is visible to a scope and context when
its project is in scope, it is enabled in the scope's environment, and at
least one strategy's constraints all pass (OR across strategies, section
4.2 steps 1-3 and the edge case note). -/
def toggleVisible (tok : ApiToken) (ctx : List (String × String))
    (t : FeatureToggle) : Bool :=
  projectInScope tok t.project && enabledInEnvironment tok t
    && t.strategies.any (strategyPasses ctx)

/-- Modelled from the spec: the toggle filter behind GET /api/frontend
(section 4.2): the visible subset, in stable insertion order. The filter
implementation is absent from the sampled sources. -/
def filterToggles (tok : ApiToken) (ctx : List (String × String))
    (toggles : List FeatureToggle) : List FeatureToggle :=
  toggles.filter (toggleVisible tok ctx)

/-! ## Token Resolver, modelled from the spec (sections 4.1, 6, 7) -/

/-- Modelled from the spec: look up the token matching a raw secret
(section 4.1). The resolver implementation is absent from the sampled
sources. -/
def findToken : List ApiToken → String → Option ApiToken
  | [], _ => none
  | tok :: rest, secret =>
    if tok.secret = secret then some tok else findToken rest secret

/-- Modelled from the spec: the HTTP status of GET /api/frontend as decided
by the token resolver (sections 4.1, 6, 7): 401 when the Authorization
header is missing or no token matches the secret, 403 for a CLIENT token,
200 for FRONTEND and ADMIN tokens. The handler implementation is absent
from the sampled sources. -/
def frontendAuthStatus (tokens : List ApiToken) (auth : Option String) : Nat :=
  match auth with
  | none => 401
  | some secret =>
    match findToken tokens secret with
    | none => 401
    | some tok =>
      match tok.tokenType with
      | ApiTokenType.client => 403
      | ApiTokenType.frontend => 200
      | ApiTokenType.admin => 200

/-! ## Route dispatch, modelled from the spec (section 6) -/

/-- HTTP methods appearing in the external-interface section. -/
inductive HttpMethod
  | GET
  | POST
  | PUT
  | DELETE
  | PATCH
deriving DecidableEq

/-- Modelled from the spec: the implemented frontend-API routes
(section 6). The router implementation is absent from the sampled
sources. -/
def frontendApiRoutes : List (HttpMethod × String) :=
  [(HttpMethod.GET, "/api/frontend"),
   (HttpMethod.POST, "/api/frontend/client/register"),
   (HttpMethod.POST, "/api/frontend/client/metrics")]

/-- Modelled from the spec: dispatch on the frontend-API paths — an
implemented (method, path) pair is handled with the handler's status,
anything else returns 405 (section 6: "Unimplemented methods on these
paths return 405"). -/
def frontendApiDispatch (m : HttpMethod) (path : String)
    (handledStatus : Nat) : Nat :=
  if (m, path) ∈ frontendApiRoutes then handledStatus else 405

/-! ## Metrics Aggregator, modelled from the spec (section 4.3) -/

/-- Modelled from the spec: the hourly aggregate key (featureName,
environment, hour-bucket-start) (section 4.3). -/
structure MetricsKey where
  featureName : String
  environment : String
  hourStart : Nat
deriving DecidableEq

/-- Modelled from the spec: a posted client bucket (section 3,
MetricsBucket); `toggles` maps a feature name to its (yes, no) counts.
Timestamps are milliseconds since the epoch. -/
structure MetricsBucket where
  appName : String
  instanceId : String
  environment : String
  start : Nat
  stop : Nat
  toggles : List (String × Nat × Nat)
deriving DecidableEq

/-- Modelled from the spec: the aggregator state — hourly (yes, no)
aggregates keyed by `MetricsKey`, and the per-feature set of seen
application names (section 4.3). -/
structure MetricsState where
  aggregates : List (MetricsKey × Nat × Nat)
  seenApplications : List (String × List String)
deriving DecidableEq

/-- Truncate a millisecond timestamp to the start of its hour. -/
def startOfHour (t : Nat) : Nat := t - t % 3600000

/-- Modelled from the spec: merge (yes, no) counts into the aggregate at a
key by pointwise sum, inserting the key when absent (section 4.3). -/
def addCounts : List (MetricsKey × Nat × Nat) → MetricsKey → Nat → Nat →
    List (MetricsKey × Nat × Nat)
  | [], k, y, n => [(k, y, n)]
  | (k', y', n') :: rest, k, y, n =>
    if k' = k then (k', y' + y, n' + n) :: rest
    else (k', y', n') :: addCounts rest k y n

/-- Modelled from the spec: record an application name among the distinct
applications seen for a feature (section 4.3, seenApplications). -/
def addSeen : List (String × List String) → String → String →
    List (String × List String)
  | [], f, a => [(f, [a])]
  | (f', apps) :: rest, f, a =>
    if f' = f then (f', if apps.contains a then apps else apps ++ [a]) :: rest
    else (f', apps) :: addSeen rest f a

/-- Modelled from the spec: POST /api/frontend/client/metrics merges a
posted bucket into the hourly aggregates keyed by (featureName,
environment, hour-bucket-start) and records the posting appName for each
reported feature (section 4.3). The aggregator implementation is absent
from the sampled sources. -/
def postBucket (st : MetricsState) (b : MetricsBucket) : MetricsState :=
  b.toggles.foldl
    (fun acc e =>
      ⟨addCounts acc.aggregates ⟨e.1, b.environment, startOfHour b.start⟩
         e.2.1 e.2.2,
       addSeen acc.seenApplications e.1 b.appName⟩)
    st

/-- The (yes, no) counts stored in an aggregate list at a key, (0, 0) when
absent. -/
def counts (aggs : List (MetricsKey × Nat × Nat)) (k : MetricsKey) : Nat × Nat :=
  (alookup aggs k).getD (0, 0)

/-- The (yes, no) counts stored at a key, (0, 0) when absent. -/
def countsAt (st : MetricsState) (k : MetricsKey) : Nat × Nat :=
  counts st.aggregates k

/-- The application names seen for a feature, empty when absent. -/
def seenApps (st : MetricsState) (f : String) : List String :=
  (alookup st.seenApplications f).getD []

/-- The total yes-count a bucket contributes to a key. -/
def contribYes (b : MetricsBucket) (k : MetricsKey) : Nat :=
  (b.toggles.map (fun e =>
    if (⟨e.1, b.environment, startOfHour b.start⟩ : MetricsKey) = k
    then e.2.1 else 0)).sum

/-- The total no-count a bucket contributes to a key. -/
def contribNo (b : MetricsBucket) (k : MetricsKey) : Nat :=
  (b.toggles.map (fun e =>
    if (⟨e.1, b.environment, startOfHour b.start⟩ : MetricsKey) = k
    then e.2.2 else 0)).sum

/-- The frontend token of the constraint-filtering scenario: scoped to the
default project and the default environment. -/
def tokenDefault : ApiToken :=
  ⟨"frontend-secret", ApiTokenType.frontend, ["default"], "default"⟩

/-- The two toggles of the constraint-filtering scenario: one with
constraint appName IN [a], one with appName IN [a, b], both enabled in the
default environment of the default project. -/
def constraintToggles : List FeatureToggle :=
  [⟨"featureWithAppNameA", "default", [("default", true)],
    [⟨"default", [⟨"appName", ConstraintOperator.IN, ["a"]⟩], []⟩]⟩,
   ⟨"featureWithAppNameAorB", "default", [("default", true)],
    [⟨"default", [⟨"appName", ConstraintOperator.IN, ["a", "b"]⟩], []⟩]⟩]

/-! ## Lemmas about the toggle filter -/

theorem mem_filterToggles_iff (tok : ApiToken) (ctx : List (String × String))
    (toggles : List FeatureToggle) (t : FeatureToggle) :
    t ∈ filterToggles tok ctx toggles ↔
      t ∈ toggles ∧ projectInScope tok t.project = true
        ∧ enabledInEnvironment tok t = true
        ∧ ∃ s ∈ t.strategies, strategyPasses ctx s = true := by
  simp [filterToggles, List.mem_filter, toggleVisible, Bool.and_eq_true,
    List.any_eq_true, and_assoc]

/-! ## Claim theorems -/

/-- Formalization of claim C1 as stated, refuted at a concrete store: an
enabled, in-scope toggle whose only strategy is named "unknown" with an
empty (hence all-passing) constraint list satisfies the claim's inclusion
criterion, yet the response omits it — the strategy-filtering integration
test (src/unnamed/part_001, lines 326-363) expects exactly that toggle to
be absent, so "exactly those with at least one strategy whose constraints
all pass" is false of the program. -/
theorem frontend_toggle_filtering_counterexample :
    ¬ (∀ (tok : ApiToken) (ctx : List (String × String))
        (toggles : List FeatureToggle) (t : FeatureToggle),
        t ∈ filterToggles tok ctx toggles ↔
          t ∈ toggles ∧ projectInScope tok t.project = true
            ∧ enabledInEnvironment tok t = true
            ∧ ∃ s ∈ t.strategies, strategyConstraintsPass ctx s = true) := by
  intro hclaim
  have h := (hclaim tokenDefault []
      [⟨"featureWithUnknownStrategy", "default", [("default", true)],
        [⟨"unknown", [], []⟩]⟩]
      ⟨"featureWithUnknownStrategy", "default", [("default", true)],
        [⟨"unknown", [], []⟩]⟩).mpr
    ⟨by simp, by decide, by decide, ⟨"unknown", [], []⟩, by simp, by decide⟩
  exact absurd h (by decide)

/-- Claim C1 (amended): the toggles returned by GET /api/frontend are
exactly the stored toggles in the token's scope that are enabled and have
at least one strategy whose algorithm is recognized and whose constraints
all pass against the request context; every returned toggle in particular
has at least one strategy with all-passing constraints, a toggle disabled
in the scope's environment never appears regardless of its strategies, and
an enabled toggle with zero strategies is excluded. -/
theorem frontend_toggle_filtering (tok : ApiToken)
    (ctx : List (String × String)) (toggles : List FeatureToggle)
    (t : FeatureToggle) :
    (t ∈ filterToggles tok ctx toggles ↔
      t ∈ toggles ∧ projectInScope tok t.project = true
        ∧ enabledInEnvironment tok t = true
        ∧ ∃ s ∈ t.strategies, strategyPasses ctx s = true)
    ∧ (t ∈ filterToggles tok ctx toggles →
        ∃ s ∈ t.strategies, strategyConstraintsPass ctx s = true)
    ∧ (enabledInEnvironment tok t = false → t ∉ filterToggles tok ctx toggles)
    ∧ (t.strategies = [] → t ∉ filterToggles tok ctx toggles) := by
  refine ⟨mem_filterToggles_iff tok ctx toggles t, ?_, ?_, ?_⟩
  · intro hmem
    obtain ⟨-, -, -, s, hs, hpass⟩ :=
      (mem_filterToggles_iff tok ctx toggles t).mp hmem
    rw [strategyPasses, Bool.and_eq_true] at hpass
    exact ⟨s, hs, hpass.2⟩
  · intro hdis hmem
    have h := (mem_filterToggles_iff tok ctx toggles t).mp hmem
    rw [hdis] at h
    simp at h
  · intro hempty hmem
    have h := (mem_filterToggles_iff tok ctx toggles t).mp hmem
    rw [hempty] at h
    simp at h

/-- Witness for C1: a concrete disabled toggle is absent from the filter's
output. -/
theorem frontend_toggle_filtering_witness :
    (⟨"disabledFeature", "default", [("default", false)],
       [⟨"default", [], []⟩]⟩ : FeatureToggle) ∉
      filterToggles tokenDefault []
        [⟨"disabledFeature", "default", [("default", false)],
          [⟨"default", [], []⟩]⟩] :=
  (frontend_toggle_filtering tokenDefault []
    [⟨"disabledFeature", "default", [("default", false)], [⟨"default", [], []⟩]⟩]
    ⟨"disabledFeature", "default", [("default", false)],
      [⟨"default", [], []⟩]⟩).2.2.1 (by decide)

/-- Formalization of claim C2 as stated, refuted at a concrete store: the
enabled, in-scope toggle whose only strategy is named "unknown" — outside
the recognized algorithms — with vacuously passing constraints is not in
the response, exactly as the strategy-filtering integration test
(src/unnamed/part_001, lines 326-363) expects. -/
theorem unknown_strategy_name_counterexample :
    ¬ (∀ (tok : ApiToken) (ctx : List (String × String))
        (toggles : List FeatureToggle) (t : FeatureToggle),
        t ∈ toggles → projectInScope tok t.project = true →
        enabledInEnvironment tok t = true →
        (∀ s ∈ t.strategies, s.name ∉ recognizedStrategyNames) →
        (∃ s ∈ t.strategies, strategyConstraintsPass ctx s = true) →
        t ∈ filterToggles tok ctx toggles) := by
  intro hclaim
  have h := hclaim tokenDefault []
      [⟨"featureWithUnknownStrategy", "default", [("default", true)],
        [⟨"unknown", [], []⟩]⟩]
      ⟨"featureWithUnknownStrategy", "default", [("default", true)],
        [⟨"unknown", [], []⟩]⟩
      (by simp) (by decide) (by decide) (by decide)
      ⟨⟨"unknown", [], []⟩, by simp, by decide⟩
  exact absurd h (by decide)

/-- Claim C2 (amended): an enabled toggle whose strategies all have names
outside the recognized strategy algorithms is excluded from the response
even when all their constraints pass — a strategy contributes to inclusion
only when its algorithm is recognized, so the strategy name is validated
when deciding inclusion. -/
theorem unknown_strategy_name_excluded (tok : ApiToken)
    (ctx : List (String × String)) (toggles : List FeatureToggle)
    (t : FeatureToggle)
    (hnames : ∀ s ∈ t.strategies, s.name ∉ recognizedStrategyNames) :
    t ∉ filterToggles tok ctx toggles := by
  intro hmem
  obtain ⟨-, -, -, s, hs, hpass⟩ :=
    (mem_filterToggles_iff tok ctx toggles t).mp hmem
  rw [strategyPasses, Bool.and_eq_true] at hpass
  have hrec : s.name ∈ recognizedStrategyNames := by
    simpa using hpass.1
  exact hnames s hs hrec

/-- Witness for C2: the concrete enabled toggle whose only strategy is
named "unknown" is excluded from the response. -/
theorem unknown_strategy_name_excluded_witness :
    (⟨"featureWithUnknownStrategy", "default", [("default", true)],
       [⟨"unknown", [], []⟩]⟩ : FeatureToggle) ∉
      filterToggles tokenDefault []
        [⟨"featureWithUnknownStrategy", "default", [("default", true)],
          [⟨"unknown", [], []⟩]⟩] :=
  unknown_strategy_name_excluded tokenDefault []
    [⟨"featureWithUnknownStrategy", "default", [("default", true)],
      [⟨"unknown", [], []⟩]⟩]
    ⟨"featureWithUnknownStrategy", "default", [("default", true)],
      [⟨"unknown", [], []⟩]⟩
    (by decide)

/-- Claim C3: every toggle returned through a token is in one of the
token's projects, and inserting or removing a toggle whose project is out
of the token's scope never changes the response seen through that token. -/
theorem project_scoping_isolation (tok : ApiToken)
    (ctx : List (String × String)) :
    (∀ (toggles : List FeatureToggle) (t : FeatureToggle),
      t ∈ filterToggles tok ctx toggles → projectInScope tok t.project = true)
    ∧ (∀ (xs ys : List FeatureToggle) (t : FeatureToggle),
      projectInScope tok t.project = false →
        filterToggles tok ctx (xs ++ t :: ys) = filterToggles tok ctx (xs ++ ys)) := by
  constructor
  · intro toggles t hmem
    exact ((mem_filterToggles_iff tok ctx toggles t).mp hmem).2.1
  · intro xs ys t hout
    simp [filterToggles, List.filter_append, List.filter_cons, toggleVisible, hout]

/-- Witness for C3: adding a toggle from an out-of-scope project to the
store leaves a concrete response unchanged. -/
theorem project_scoping_isolation_witness :
    filterToggles ⟨"s", ApiTokenType.frontend, ["projectA"], "default"⟩ []
      ([] ++ (⟨"featureInProjectB", "projectB", [("default", true)],
        [⟨"default", [], []⟩]⟩ : FeatureToggle) :: []) =
    filterToggles ⟨"s", ApiTokenType.frontend, ["projectA"], "default"⟩ []
      ([] ++ []) :=
  (project_scoping_isolation
    ⟨"s", ApiTokenType.frontend, ["projectA"], "default"⟩ []).2 [] []
    ⟨"featureInProjectB", "projectB", [("default", true)],
      [⟨"default", [], []⟩]⟩ (by decide)

/-- Claim C4: GET /api/frontend yields 401 with no token or a secret
matching no stored token (e.g. a truncated secret), 403 with a CLIENT
token, and 200 with a FRONTEND or ADMIN token. -/
theorem frontend_auth_statuses (tokens : List ApiToken) (secret : String)
    (tok : ApiToken) :
    frontendAuthStatus tokens none = 401
    ∧ (findToken tokens secret = none →
        frontendAuthStatus tokens (some secret) = 401)
    ∧ (findToken tokens secret = some tok →
        ((tok.tokenType = ApiTokenType.client →
           frontendAuthStatus tokens (some secret) = 403)
         ∧ (tok.tokenType = ApiTokenType.frontend →
           frontendAuthStatus tokens (some secret) = 200)
         ∧ (tok.tokenType = ApiTokenType.admin →
           frontendAuthStatus tokens (some secret) = 200))) := by
  refine ⟨rfl, ?_, ?_⟩
  · intro h
    simp [frontendAuthStatus, h]
  · intro h
    refine ⟨?_, ?_, ?_⟩ <;> intro ht <;> simp [frontendAuthStatus, h, ht]

/-- Witness for C4: concrete tokens of each type produce the claimed
statuses, and a truncated secret produces 401. -/
theorem frontend_auth_statuses_witness :
    frontendAuthStatus [⟨"client-secret", ApiTokenType.client, ["default"], "default"⟩]
      (some "client-secret") = 403
    ∧ frontendAuthStatus [⟨"frontend-secret", ApiTokenType.frontend, ["default"], "default"⟩]
      (some "frontend-secret") = 200
    ∧ frontendAuthStatus [⟨"frontend-secret", ApiTokenType.frontend, ["default"], "default"⟩]
      (some "frontend-secre") = 401 :=
  ⟨((frontend_auth_statuses
      [⟨"client-secret", ApiTokenType.client, ["default"], "default"⟩]
      "client-secret"
      ⟨"client-secret", ApiTokenType.client, ["default"], "default"⟩).2.2
      (by decide)).1 rfl,
   ((frontend_auth_statuses
      [⟨"frontend-secret", ApiTokenType.frontend, ["default"], "default"⟩]
      "frontend-secret"
      ⟨"frontend-secret", ApiTokenType.frontend, ["default"], "default"⟩).2.2
      (by decide)).2.1 rfl,
   (frontend_auth_statuses
      [⟨"frontend-secret", ApiTokenType.frontend, ["default"], "default"⟩]
      "frontend-secre"
      ⟨"frontend-secret", ApiTokenType.frontend, ["default"], "default"⟩).2.1
      (by decide)⟩

/-- Claim C7: with the two stored toggles carrying constraints
appName IN [a] and appName IN [a, b], the query appName=a returns both
toggles, appName=b returns exactly one, and appName=c returns zero;
an IN constraint is true iff the named context field's value is in the
constraint's value set, and a missing context field makes the constraint
fail. -/
theorem constraint_filtering :
    (filterToggles tokenDefault [("appName", "a")] constraintToggles).length = 2
    ∧ (filterToggles tokenDefault [("appName", "b")] constraintToggles).length = 1
    ∧ (filterToggles tokenDefault [("appName", "c")] constraintToggles).length = 0
    ∧ (∀ (ctx : List (String × String)) (c : Constraint) (v : String),
        c.operator = ConstraintOperator.IN → alookup ctx c.contextName = some v →
        (evalConstraint ctx c = true ↔ c.values.contains v = true))
    ∧ (∀ (ctx : List (String × String)) (c : Constraint),
        alookup ctx c.contextName = none → evalConstraint ctx c = false) := by
  refine ⟨by decide, by decide, by decide, ?_, ?_⟩
  · intro ctx c v hop hlook
    simp [evalConstraint, hlook, hop]
  · intro ctx c hlook
    simp [evalConstraint, hlook]

/-- Witness for C7: the IN characterization and the missing-field failure
evaluated at concrete constraints. -/
theorem constraint_filtering_witness :
    evalConstraint [("appName", "b")]
      ⟨"appName", ConstraintOperator.IN, ["a", "b"]⟩ = true
    ∧ evalConstraint []
      ⟨"appName", ConstraintOperator.IN, ["a"]⟩ = false :=
  ⟨(constraint_filtering.2.2.2.1 [("appName", "b")]
      ⟨"appName", ConstraintOperator.IN, ["a", "b"]⟩ "b" rfl (by decide)).mpr
      (by decide),
   constraint_filtering.2.2.2.2 []
      ⟨"appName", ConstraintOperator.IN, ["a"]⟩ (by decide)⟩

/-- Claim C8: any (method, path) pair not among the implemented
frontend-API routes is answered with 405; in particular POST /api/frontend,
GET /api/frontend/client/features and GET /api/frontend/health. -/
theorem unimplemented_methods_return_405 :
    (∀ (m : HttpMethod) (path : String) (s : Nat),
      (m, path) ∉ frontendApiRoutes → frontendApiDispatch m path s = 405)
    ∧ (∀ s : Nat,
      frontendApiDispatch HttpMethod.POST "/api/frontend" s = 405
      ∧ frontendApiDispatch HttpMethod.GET "/api/frontend/client/features" s = 405
      ∧ frontendApiDispatch HttpMethod.GET "/api/frontend/health" s = 405) := by
  constructor
  · intro m path s h
    simp [frontendApiDispatch, h]
  · intro s
    refine ⟨?_, ?_, ?_⟩ <;> simp [frontendApiDispatch, frontendApiRoutes]

/-- Witness for C8: an unimplemented method on an implemented path is
answered with 405. -/
theorem unimplemented_methods_return_405_witness :
    frontendApiDispatch HttpMethod.DELETE "/api/frontend" 200 = 405 :=
  unimplemented_methods_return_405.1 HttpMethod.DELETE "/api/frontend" 200
    (by decide)

/-! ## Lemmas about the metrics aggregator -/

theorem counts_addCounts (aggs : List (MetricsKey × Nat × Nat))
    (k : MetricsKey) (y n : Nat) (k' : MetricsKey) :
    counts (addCounts aggs k y n) k' =
      ((counts aggs k').1 + (if k = k' then y else 0),
       (counts aggs k').2 + (if k = k' then n else 0)) := by
  induction aggs with
  | nil =>
    by_cases h : k = k' <;> simp [addCounts, counts, alookup, h]
  | cons hd tl ih =>
    obtain ⟨k₀, y₀, n₀⟩ := hd
    by_cases h₀ : k₀ = k
    · subst h₀
      by_cases h' : k₀ = k' <;> simp [addCounts, counts, alookup, h']
    · by_cases h' : k₀ = k'
      · subst h'
        have hne : k ≠ k₀ := fun hk => h₀ hk.symm
        simp [addCounts, counts, alookup, h₀, hne]
      · simp [counts] at ih
        simp [addCounts, counts, alookup, h₀, h', ih]

theorem counts_foldStep (env app : String) (hour : Nat) (k : MetricsKey) :
    ∀ (l : List (String × Nat × Nat)) (st : MetricsState),
    counts ((l.foldl (fun acc e =>
        (⟨addCounts acc.aggregates ⟨e.1, env, hour⟩ e.2.1 e.2.2,
          addSeen acc.seenApplications e.1 app⟩ : MetricsState)) st).aggregates) k
      = ((counts st.aggregates k).1 +
          (l.map (fun e =>
            if (⟨e.1, env, hour⟩ : MetricsKey) = k then e.2.1 else 0)).sum,
         (counts st.aggregates k).2 +
          (l.map (fun e =>
            if (⟨e.1, env, hour⟩ : MetricsKey) = k then e.2.2 else 0)).sum) := by
  intro l
  induction l with
  | nil => intro st; simp
  | cons e l ih =>
    intro st
    rw [List.foldl_cons, ih]
    simp [counts_addCounts, Prod.ext_iff]
    constructor <;> omega

theorem countsAt_postBucket (st : MetricsState) (b : MetricsBucket)
    (k : MetricsKey) :
    countsAt (postBucket st b) k
      = ((countsAt st k).1 + contribYes b k,
         (countsAt st k).2 + contribNo b k) := by
  simpa [countsAt, postBucket, contribYes, contribNo] using
    counts_foldStep b.environment b.appName (startOfHour b.start) k b.toggles st

theorem countsAt_foldl_postBucket (k : MetricsKey) :
    ∀ (bs : List MetricsBucket) (st : MetricsState),
    countsAt (bs.foldl postBucket st) k
      = ((countsAt st k).1 + (bs.map (fun b => contribYes b k)).sum,
         (countsAt st k).2 + (bs.map (fun b => contribNo b k)).sum) := by
  intro bs
  induction bs with
  | nil => intro st; simp
  | cons b bs ih =>
    intro st
    rw [List.foldl_cons, ih, countsAt_postBucket]
    simp [Prod.ext_iff]
    constructor <;> omega

theorem mem_addSeen : ∀ (seen : List (String × List String)) (f' a' f a : String),
    a ∈ (alookup seen f).getD [] → a ∈ (alookup (addSeen seen f' a') f).getD [] := by
  intro seen f' a' f a
  induction seen with
  | nil => intro h; simp [alookup] at h
  | cons hd tl ih =>
    obtain ⟨f₀, apps⟩ := hd
    intro h
    by_cases h₀ : f₀ = f'
    · subst h₀
      by_cases hf : f₀ = f
      · subst hf
        simp [alookup] at h
        by_cases hc : a' ∈ apps <;> simp [addSeen, alookup, hc]
        · exact h
        · exact Or.inl h
      · simpa [addSeen, alookup, hf] using h
    · by_cases hf : f₀ = f
      · subst hf
        simpa [addSeen, alookup, h₀] using h
      · simp [alookup, hf] at h
        simpa [addSeen, alookup, h₀, hf] using ih h

theorem seenApps_foldStep (env app : String) (hour : Nat) (f a : String) :
    ∀ (l : List (String × Nat × Nat)) (st : MetricsState),
    a ∈ seenApps st f →
    a ∈ seenApps (l.foldl (fun acc e =>
        (⟨addCounts acc.aggregates ⟨e.1, env, hour⟩ e.2.1 e.2.2,
          addSeen acc.seenApplications e.1 app⟩ : MetricsState)) st) f := by
  intro l
  induction l with
  | nil => intro st h; simpa using h
  | cons e l ih =>
    intro st h
    rw [List.foldl_cons]
    exact ih _ (mem_addSeen st.seenApplications e.1 app f a h)

theorem seenApps_postBucket_mono (st : MetricsState) (b : MetricsBucket)
    (f a : String) (h : a ∈ seenApps st f) :
    a ∈ seenApps (postBucket st b) f :=
  seenApps_foldStep b.environment b.appName (startOfHour b.start) f a
    b.toggles st h

/-- Claim C5: posting two buckets for the same feature and hour window,
first with counts (1, 10) and then with (2, 20), yields the hourly
aggregate (3, 30) for that feature and environment, and seenApplications
contains the posting appName exactly once even though it was posted
twice. -/
theorem metrics_two_buckets_aggregate (app inst f : String) (t : Nat) :
    countsAt (postBucket (postBucket ⟨[], []⟩
        ⟨app, inst, "default", t, t, [(f, 1, 10)]⟩)
        ⟨app, inst, "default", t, t, [(f, 2, 20)]⟩)
      ⟨f, "default", startOfHour t⟩ = (3, 30)
    ∧ seenApps (postBucket (postBucket ⟨[], []⟩
        ⟨app, inst, "default", t, t, [(f, 1, 10)]⟩)
        ⟨app, inst, "default", t, t, [(f, 2, 20)]⟩) f = [app] := by
  constructor
  · rw [countsAt_postBucket, countsAt_postBucket]
    simp [countsAt, counts, alookup, contribYes, contribNo]
  · simp [postBucket, addSeen, addCounts, seenApps, alookup]

/-- Claim C6: metrics aggregation is additive and commutative — the stored
counts after folding a sequence of buckets are invariant under permutation
of the sequence — and monotone: a merge never decreases a stored yes or no
count, and the per-feature set of seen applications only grows. -/
theorem metrics_aggregation_properties :
    (∀ (st : MetricsState) (bs₁ bs₂ : List MetricsBucket), bs₁.Perm bs₂ →
      ∀ k, countsAt (bs₁.foldl postBucket st) k
        = countsAt (bs₂.foldl postBucket st) k)
    ∧ (∀ (st : MetricsState) (b : MetricsBucket) (k : MetricsKey),
      (countsAt st k).1 ≤ (countsAt (postBucket st b) k).1
      ∧ (countsAt st k).2 ≤ (countsAt (postBucket st b) k).2)
    ∧ (∀ (st : MetricsState) (b : MetricsBucket) (f a : String),
      a ∈ seenApps st f → a ∈ seenApps (postBucket st b) f) := by
  refine ⟨?_, ?_, ?_⟩
  · intro st bs₁ bs₂ hperm k
    rw [countsAt_foldl_postBucket, countsAt_foldl_postBucket,
      (hperm.map (fun b => contribYes b k)).sum_eq,
      (hperm.map (fun b => contribNo b k)).sum_eq]
  · intro st b k
    rw [countsAt_postBucket]
    exact ⟨Nat.le_add_right _ _, Nat.le_add_right _ _⟩
  · exact seenApps_postBucket_mono

/-- Witness for C6: swapping two concrete posted buckets leaves the stored
counts unchanged, and a seen application survives a further post. -/
theorem metrics_aggregation_properties_witness :
    countsAt (([⟨"app1", "i1", "default", 0, 0, [("f", 1, 10)]⟩,
        ⟨"app2", "i2", "default", 0, 0, [("f", 2, 20)]⟩] :
        List MetricsBucket).foldl postBucket ⟨[], []⟩)
      ⟨"f", "default", startOfHour 0⟩
      = countsAt (([⟨"app2", "i2", "default", 0, 0, [("f", 2, 20)]⟩,
          ⟨"app1", "i1", "default", 0, 0, [("f", 1, 10)]⟩] :
          List MetricsBucket).foldl postBucket ⟨[], []⟩)
        ⟨"f", "default", startOfHour 0⟩
    ∧ "app" ∈ seenApps (postBucket ⟨[], [("f", ["app"])]⟩
        ⟨"app2", "i", "default", 0, 0, []⟩) "f" :=
  ⟨metrics_aggregation_properties.1 ⟨[], []⟩ _ _
      (List.Perm.swap _ _ []) ⟨"f", "default", startOfHour 0⟩,
   metrics_aggregation_properties.2.2 ⟨[], [("f", ["app"])]⟩
      ⟨"app2", "i", "default", 0, 0, []⟩ "f" "app" (by decide)⟩

/-- Formalization of claim C9 as stated, refuted at a concrete input: with
customHeaders the one-character string "x" — not valid JSON, the parse
oracle rejects it — handleEvent logs no warning, because the source only
attempts the parse (and hence the warning) when the string's length exceeds
one. -/
theorem webhook_warn_counterexample :
    ¬ (∀ (parseJson : String → Option (List (String × String)))
        (render : String → Nat → String) (stringify : Nat → String)
        (event : Nat) (p : WebhookParameters) (c : String),
        p.customHeaders = some c → parseJson c = none →
        (handleEvent parseJson render stringify event p).warnedInvalidHeaders
          = true) := by
  intro hclaim
  have h := hclaim (fun _ => none) (fun _ _ => "rendered") (fun _ => "event")
    0 ⟨"https://example.com", none, none, none, some "x"⟩ "x" rfl rfl
  exact absurd h (by decide)

/-- Claim C9 (amended): when customHeaders is a string the JSON parse
rejects, handleEvent does not fail — the request is exactly the one built
with no customHeaders at all (empty extra headers, same body, same
Content-Type and Authorization headers, still a POST) — and the warning is
logged exactly when the string's length exceeds one. -/
theorem webhook_invalid_customHeaders {Event : Type}
    (parseJson : String → Option (List (String × String)))
    (render : String → Event → String) (stringify : Event → String)
    (event : Event) (p : WebhookParameters) (c : String)
    (hc : p.customHeaders = some c) (hp : parseJson c = none) :
    (handleEvent parseJson render stringify event p).request
      = (handleEvent parseJson render stringify event
          ⟨p.url, p.bodyTemplate, p.contentType, p.authorization, none⟩).request
    ∧ ((handleEvent parseJson render stringify event p).warnedInvalidHeaders
        = true ↔ 1 < c.length) := by
  by_cases hl : 1 < c.length
  · simp [handleEvent, hc, hp, hl]
  · simp [handleEvent, hc, hp, hl]

/-- Witness for C9: the amended theorem applied at a concrete two-character
invalid-JSON customHeaders string. -/
theorem webhook_invalid_customHeaders_witness :
    (handleEvent (fun _ => (none : Option (List (String × String))))
        (fun _ _ => "rendered") (fun _ : Nat => "event") 0
        ⟨"https://example.com", none, none, none, some "no"⟩).request
      = (handleEvent (fun _ => none) (fun _ _ => "rendered")
          (fun _ : Nat => "event") 0
          ⟨"https://example.com", none, none, none, none⟩).request
    ∧ ((handleEvent (fun _ => (none : Option (List (String × String))))
        (fun _ _ => "rendered") (fun _ : Nat => "event") 0
        ⟨"https://example.com", none, none, none, some "no"⟩).warnedInvalidHeaders
        = true ↔ 1 < ("no").length) :=
  webhook_invalid_customHeaders (fun _ => none) (fun _ _ => "rendered")
    (fun _ : Nat => "event") 0
    ⟨"https://example.com", none, none, none, some "no"⟩ "no" rfl rfl

/-- Claim C10: when bodyTemplate is absent or a string of length at most
one, the request body is the JSON serialization of the event; the
Mustache-rendered template is used exactly when bodyTemplate is a string of
length strictly greater than one; and the Content-Type header defaults to
application/json when contentType is absent or empty. -/
theorem webhook_body_and_contentType {Event : Type}
    (parseJson : String → Option (List (String × String)))
    (render : String → Event → String) (stringify : Event → String)
    (event : Event) (p : WebhookParameters) :
    ((p.bodyTemplate = none ∨ ∃ t, p.bodyTemplate = some t ∧ t.length ≤ 1) →
      (handleEvent parseJson render stringify event p).request.body
        = stringify event)
    ∧ (∀ t, p.bodyTemplate = some t → 1 < t.length →
      (handleEvent parseJson render stringify event p).request.body
        = render t event)
    ∧ ((p.contentType = none ∨ p.contentType = some "") →
      (handleEvent parseJson render stringify event p).request.contentTypeHeader
        = "application/json") := by
  refine ⟨?_, ?_, ?_⟩
  · rintro (h | ⟨t, ht, hlen⟩)
    · simp [handleEvent, h]
    · have hnl : ¬ 1 < t.length := by omega
      simp [handleEvent, ht, hnl]
  · intro t ht hlen
    simp [handleEvent, ht, hlen]
  · rintro (h | h) <;> simp [handleEvent, jsStringOr, h]

/-- Witness for C10: a one-character template is ignored in favor of the
serialized event, and an empty contentType falls back to
application/json. -/
theorem webhook_body_and_contentType_witness :
    (handleEvent (fun _ => (none : Option (List (String × String))))
        (fun _ _ => "rendered") (fun _ : Nat => "event") 0
        ⟨"https://example.com", some "x", some "", none, none⟩).request.body
      = "event"
    ∧ (handleEvent (fun _ => (none : Option (List (String × String))))
        (fun _ _ => "rendered") (fun _ : Nat => "event") 0
        ⟨"https://example.com", some "x", some "", none,
          none⟩).request.contentTypeHeader = "application/json" :=
  ⟨(webhook_body_and_contentType (fun _ => none) (fun _ _ => "rendered")
      (fun _ : Nat => "event") 0
      ⟨"https://example.com", some "x", some "", none, none⟩).1
      (Or.inr ⟨"x", rfl, by decide⟩),
   (webhook_body_and_contentType (fun _ => none) (fun _ _ => "rendered")
      (fun _ : Nat => "event") 0
      ⟨"https://example.com", some "x", some "", none, none⟩).2.2
      (Or.inr rfl)⟩

end Unleash
